import Mathlib

/-!
# Verification of the mathjax-angular-app content pipeline

This file gives a shallow embedding, in Lean 4, of the content-processing
pipeline of the `mathjax-angular-app` repository:

* the MathJax typesetting adapter (`MathJaxService`): anchor-link
  post-processing (`fixAnchorLinks`), configuration merging
  (`resetMathJaxState`), document rendering (`renderDocument`), global CSS
  style injection (`injectGlobalMathJaxStyles`), and `reset`;
* the content-processing component (`MathJaxContentComponent.processContent`);
* the document loader (`DocumentService`): metadata extraction and stripping;
* the document-home manifest sorting.

Strings are modelled as `List Char` in the computational core (Lean's
`String.trim` and friends are byte-index based and do not reduce well), with
`String` wrappers at the API boundary.  External platform capabilities
(the MathJax engine proper, `JSON.parse`, RxJS subjects, the DOM) are
modelled as oracle parameters or small state records whose behaviour follows
their documented semantics; everything written by the repository itself is
translated directly from the source.
-/

/-! ## JS string helpers -/

/-- JavaScript `String.prototype.trim`, modelled on character lists:
drop whitespace from both ends. -/
def trimChars (s : List Char) : List Char :=
  ((s.dropWhile Char.isWhitespace).reverse.dropWhile Char.isWhitespace).reverse

/-- The `String` wrapper for `trimChars` (JS `s.trim()`). -/
def trimJS (s : String) : String :=
  (trimChars s.toList).asString

/-- Whether `pat` occurs as a contiguous substring of `s` (JS `includes`). -/
def hasSubstr : List Char → List Char → Bool
  | s, pat =>
    if pat.isPrefixOf s then true
    else
      match s with
      | [] => false
      | _ :: t => hasSubstr t pat

/-! ## C1: the anchor-link post-processing pass (`fixAnchorLinks`)

The source (`mathjax.service.ts`) performs

`html.replace(/href=(["'])(?:https?:\/\/[^/#]+)?\/?#([^"']+)\1/g,`
`             `href=$1${location}#$2$1`)`

We model the regular expression by a deterministic matcher (the pattern has
no genuinely nondeterministic backtracking: `[^/#]+` and `[^"']+` are
character-class repetitions whose extent is forced, and the only choice
point, the optional origin group, is resolved in the engine's order: try
the group first, fall back to skipping it).  The replacement template
inserts `location` literally; this is faithful to JS whenever `location`
contains no `$` substitution metacharacter. -/

/-- One of the two quote characters matched by `(["'])`. -/
def isQuoteChar (c : Char) : Bool := c = '"' || c = '\''

/-- Try to consume `https?:\/\/[^/#]+` from the front of `s`; on success
return the remainder.  The host part `[^/#]+` must be nonempty. -/
def tryOrigin (s : List Char) : Option (List Char) :=
  let afterScheme : Option (List Char) :=
    if ("https://".toList).isPrefixOf s then some (s.drop 8)
    else if ("http://".toList).isPrefixOf s then some (s.drop 7)
    else none
  match afterScheme with
  | none => none
  | some r =>
    let host := r.takeWhile (fun c => !(c = '/' || c = '#'))
    if host.isEmpty then none
    else some (r.dropWhile (fun c => !(c = '/' || c = '#')))

/-- Consume `\/?#` from the front of `s`: an optional slash followed by a
mandatory `#`; on success return the remainder after the `#`. -/
def afterSlashHash : List Char → Option (List Char)
  | '/' :: '#' :: r => some r
  | '#' :: r => some r
  | _ => none

/-- The part of the regex between the opening quote and the fragment:
`(?:https?:\/\/[^/#]+)?\/?#`.  The optional origin group is tried first;
if the rest of the pattern fails after it, the engine backtracks to not
taking the group at all. -/
def matchPrefragment (s : List Char) : Option (List Char) :=
  match tryOrigin s with
  | some r =>
    match afterSlashHash r with
    | some r2 => some r2
    | none => afterSlashHash s
  | none => afterSlashHash s

/-- Try to match `href=(["'])(?:https?:\/\/[^/#]+)?\/?#([^"']+)\1` at the
head of `s`.  On success, return the quote character (`$1`), the captured
fragment (`$2`, nonempty, no quote characters), and the remainder of the
input after the closing quote. -/
def matchHrefAt (s : List Char) : Option (Char × List Char × List Char) :=
  if ("href=".toList).isPrefixOf s then
    match s.drop 5 with
    | [] => none
    | q :: r =>
      if isQuoteChar q then
        match matchPrefragment r with
        | none => none
        | some afterHash =>
          let frag := afterHash.takeWhile (fun c => !isQuoteChar c)
          match afterHash.dropWhile (fun c => !isQuoteChar c) with
          | [] => none
          | c :: r3 =>
            if frag.isEmpty then none
            else if c = q then some (q, frag, r3) else none
      else none
  else none

/-- The left-to-right global-replace pass of `String.replace(..., /.../g)`:
at each position try the regex; on a match, emit the replacement template
`href=$1<loc>#$2$1` and continue after the match, otherwise copy one
character.  `fuel` bounds the recursion; every step consumes at least one
input character, so `fuel = s.length` suffices. -/
def fixAnchorLoop (loc : List Char) : Nat → List Char → List Char
  | 0, s => s
  | _ + 1, [] => []
  | fuel + 1, c :: rest =>
    match matchHrefAt (c :: rest) with
    | some (q, frag, r2) =>
      "href=".toList ++ q :: (loc ++ '#' :: (frag ++ q :: fixAnchorLoop loc fuel r2))
    | none => c :: fixAnchorLoop loc fuel rest

/-- The `MathJaxService.fixAnchorLinks` on character lists. -/
def fixAnchorCore (loc html : List Char) : List Char :=
  fixAnchorLoop loc html.length html

/-- The `MathJaxService.fixAnchorLinks(location, html)`: rewrite every
`href="#frag"` (optionally preceded by a bare origin and at most one slash
before the `#`) into `href="<location>#frag"`. -/
def fixAnchorLinks (location html : String) : String :=
  (fixAnchorCore location.toList html.toList).asString

/-! ## C2/C3: the content-processing orchestrator
(`MathJaxContentComponent.processContent`, `mathjax-content.component.ts`)

The component's mutable fields and signals are collected in `CompState`;
the outcomes of the awaited platform/service calls made during one
`processContent` run (container presence, `processAngularComponents`,
`renderMath`) are supplied by a `PipelineEnv` oracle; the observable side
effects of a run (service calls, DOM writes, emitted events) are counted
in a `RunEffects` record. -/

/-- The `processingStage` signal:
`'parsing' | 'components' | 'math' | 'complete'`. -/
inductive Stage
  | parsing
  | components
  | math
  | complete
deriving DecidableEq, Repr

/-- Mutable state of `MathJaxContentComponent` relevant to
`processContent`. -/
structure CompState where
  /-- The `@Input() content` -/
  content : String
  /-- The `@Input() enableDynamicComponents` -/
  enableDynamicComponents : Bool
  /-- internal `componentsEnabled` flag -/
  componentsEnabled : Bool
  /-- The `lastProcessedContent` -/
  lastProcessedContent : String
  /-- The `isProcessing` signal -/
  isProcessing : Bool
  /-- The `processingStage` signal -/
  processingStage : Stage
  /-- The `errorMessage` signal (`''` = no error) -/
  errorMessage : String
  /-- The `componentCount` signal -/
  componentCount : Nat
deriving DecidableEq, Repr

/-- Oracle for the awaited calls of one `processContent` run. -/
structure PipelineEnv where
  /-- whether `this.mathContainer?.nativeElement` is non-null -/
  hasContainer : Bool
  /-- The `mathJaxService.processAngularComponents`: `some e` = throws `e` -/
  componentsError : Option String
  /-- The `mathJaxService.renderMath`: `some e` = throws `e` -/
  renderError : Option String
  /-- number of `.dynamic-component-container` elements counted after a
  successful `processComponents` -/
  createdComponents : Nat
deriving DecidableEq, Repr

/-- Side effects observable from one `processContent` run. -/
structure RunEffects where
  /-- markdown→HTML conversions performed -/
  markdownConversions : Nat
  /-- writes to `mathContainer.nativeElement.innerHTML` -/
  domUpdates : Nat
  /-- The `mathJaxService.destroyAllComponents()` calls (component teardown) -/
  teardowns : Nat
  /-- The `mathJaxService.processAngularComponents` calls (expansion) -/
  componentExpansions : Nat
  /-- The `mathJaxService.renderMath` calls (typesetting) -/
  typesetCalls : Nat
  /-- The `contentProcessed.emit()` calls (completion events) -/
  completionEvents : Nat
  /-- The `errorOccurred.emit()` calls (error events) -/
  errorEvents : Nat
deriving DecidableEq, Repr

/-- The all-zero effect record: nothing happened. -/
def RunEffects.zero : RunEffects := ⟨0, 0, 0, 0, 0, 0, 0⟩

/-- The `handleError(error)`: set the error signal (`error.message ||
'Unknown error occurred'`), leave processing state
(`setProcessingState(false, 'complete')`); the `errorOccurred` emission is
counted at the call site. -/
def handleError (st : CompState) (msg : String) : CompState :=
  { st with
    errorMessage := if msg = "" then "Unknown error occurred" else msg,
    isProcessing := false,
    processingStage := .complete }

/-- The `clearContent()`: empty the container (when present), destroy prior
dynamic components, reset the counters, and forget the last processed
content. -/
def clearContent (env : PipelineEnv) (st : CompState) : CompState × RunEffects :=
  ({ st with componentCount := 0, lastProcessedContent := "" },
   { RunEffects.zero with
       domUpdates := if env.hasContainer then 1 else 0,
       teardowns := 1 })

/-- The `processContent()`, translated branch by branch from
`mathjax-content.component.ts`.  The markdown conversion
(`marked` + `convertMarkdownToHtml`) is counted as one conversion; it
cannot throw.  `processComponents` and `renderMathJax` rethrow service
errors wrapped in the messages visible in the source. -/
def processContent (env : PipelineEnv) (st : CompState) : CompState × RunEffects :=
  -- `if (!this.content?.trim()) { this.clearContent(); return; }`
  if trimChars st.content.toList = [] then
    clearContent env st
  -- `if (this.content === this.lastProcessedContent && !this.isProcessing()) return;`
  else if st.content = st.lastProcessedContent ∧ st.isProcessing = false then
    (st, RunEffects.zero)
  else
    -- `setProcessingState(true, 'parsing'); this.clearError();`
    -- `destroyAllComponents(); componentCount.set(0);` then markdown conversion
    let st1 : CompState :=
      { st with
        isProcessing := true, processingStage := .parsing,
        errorMessage := "", componentCount := 0 }
    if env.hasContainer then
      -- `mathContainer.nativeElement.innerHTML = htmlContent`
      if st1.componentsEnabled ∧ st1.enableDynamicComponents then
        -- `setProcessingState(true, 'components'); await this.processComponents();`
        match env.componentsError with
        | some e =>
          (handleError { st1 with processingStage := .components }
             ("Component processing failed: " ++ e),
           { RunEffects.zero with
               markdownConversions := 1, domUpdates := 1, teardowns := 1,
               componentExpansions := 1, errorEvents := 1 })
        | none =>
          -- `setProcessingState(true, 'math'); await this.renderMathJax();`
          let st2 : CompState :=
            { st1 with processingStage := .math,
                       componentCount := env.createdComponents }
          match env.renderError with
          | some e =>
            (handleError st2 ("MathJax rendering failed: " ++ e),
             { RunEffects.zero with
                 markdownConversions := 1, domUpdates := 1, teardowns := 1,
                 componentExpansions := 1, typesetCalls := 1,
                 errorEvents := 1 })
          | none =>
            -- success: record content, complete, emit
            ({ st2 with
                 lastProcessedContent := st2.content,
                 isProcessing := false, processingStage := .complete },
             { RunEffects.zero with
                 markdownConversions := 1, domUpdates := 1, teardowns := 1,
                 componentExpansions := 1, typesetCalls := 1,
                 completionEvents := 1 })
      else
        -- components disabled: straight to `renderMathJax`
        let st2 : CompState := { st1 with processingStage := .math }
        match env.renderError with
        | some e =>
          (handleError st2 ("MathJax rendering failed: " ++ e),
           { RunEffects.zero with
               markdownConversions := 1, domUpdates := 1, teardowns := 1,
               typesetCalls := 1, errorEvents := 1 })
        | none =>
          ({ st2 with
               lastProcessedContent := st2.content,
               isProcessing := false, processingStage := .complete },
           { RunEffects.zero with
               markdownConversions := 1, domUpdates := 1, teardowns := 1,
               typesetCalls := 1, completionEvents := 1 })
    else
      -- no container: the DOM block is skipped entirely; the run ends
      -- still marked as processing, with nothing recorded and nothing emitted
      (st1, { RunEffects.zero with markdownConversions := 1, teardowns := 1 })

/-- The `statusClass()`: `'error'` when an error is exposed, else
`'processing'` or `'ready'`. -/
def statusClass (st : CompState) : String :=
  if st.errorMessage ≠ "" then "error"
  else if st.isProcessing then "processing"
  else "ready"

/-- Whether the dynamic-component stage runs for this state
(`this.componentsEnabled && this.enableDynamicComponents`). -/
def componentsRun (st : CompState) : Bool :=
  st.componentsEnabled && st.enableDynamicComponents

/-- Whether some pipeline stage of this run throws (the two fallible
stages are component expansion and typesetting; expansion failure
short-circuits typesetting). -/
def stageThrows (env : PipelineEnv) (st : CompState) : Bool :=
  if componentsRun st then
    env.componentsError.isSome || env.renderError.isSome
  else
    env.renderError.isSome

/-! ## C6: the typesetting-configuration merger
(`MathJaxService.resetMathJaxState`)

The claim cites both `mathjax.service.ts` and the variant service file;
the variant is the one carrying the `AllPackages` special case, so it is
the one embedded here (for a base whose package list is not the
all-packages constant, the two variants perform the same merge).
JS objects are modelled as association lists (`{...base, ...override}` =
`objectSpread`), JS `Array.from(new Set(...))` as order-preserving
first-occurrence deduplication, and the JS reference comparison
`baseConfig['packages'] != AllPackages` as structural comparison with the
library constant, which is passed in as a parameter (in the source the
base config's package field is the `AllPackages` array itself, so the
reference comparison and the structural one agree). -/

/-- Per-document override options (`AdditionalTexOptions`): optional extra
packages and macros. -/
structure AdditionalTexOptions where
  packages : Option (List String) := none
  macros : Option (List (String × String)) := none
deriving DecidableEq, Repr

/-- The portion of the service's base `OptionList` involved in the merge
(`packages`, `macros`, plus a scalar field standing for the settings that
the spread copies unchanged). -/
structure TexConfig where
  packages : List String
  macros : List (String × String)
  tags : String
deriving DecidableEq, Repr

/-- JS object spread `{...base, ...override}` on association lists:
base keys in base order with overridden values, then the override's new
keys in override order. -/
def objectSpread (base override : List (String × String)) :
    List (String × String) :=
  base.map (fun p =>
    match override.lookup p.1 with
    | some v => (p.1, v)
    | none => p) ++
  override.filter (fun p => (base.lookup p.1).isNone)

/-- The `Array.from(new Set(l))`: deduplicate keeping first occurrences, in
order.  `seen` accumulates the elements already emitted. -/
def dedupFirstAux (seen : List String) : List String → List String
  | [] => []
  | x :: xs =>
    if x ∈ seen then dedupFirstAux seen xs
    else x :: dedupFirstAux (x :: seen) xs

/-- The `Array.from(new Set(l))` with an empty starting set. -/
def dedupFirst (l : List String) : List String := dedupFirstAux [] l

/-- The `MathJaxService.resetMathJaxState(inputConfig?)`: build the TeX input
configuration, merging the base configuration with the per-document
overrides when they are present.  `allPackages` is the external library
constant `AllPackages`. -/
def resetMathJaxState (allPackages : List String) (baseConfig : TexConfig)
    (inputConfig : Option AdditionalTexOptions) : TexConfig :=
  match inputConfig with
  | some cfg =>
    let configurePackages :=
      if baseConfig.packages ≠ allPackages then
        dedupFirst (baseConfig.packages ++ cfg.packages.getD [])
      else allPackages
    let mergedMacros := objectSpread baseConfig.macros (cfg.macros.getD [])
    { baseConfig with packages := configurePackages, macros := mergedMacros }
  | none => baseConfig

/-! ## C4/C5/C7/C10: the typesetting adapter (`MathJaxService`)

`renderDocument`, `injectGlobalMathJaxStyles`,
`removeGlobalMathJaxStyles` and `reset` from `mathjax.service.ts`.
The DOM `<head>` is a list of elements with identities (`ref`); the
engine (`mathjax.document`, `renderPromise`, the adaptor) is an oracle
(`EngineEnv`); RxJS `BehaviorSubject`s follow their documented semantics:
`next` delivers a value to subscribers unless the subject has been
stopped by `complete()`, after which `next` is ignored. -/

/-- A DOM element attached to `document.head`: identity, `id` attribute,
and CSS text content. -/
structure HeadElem where
  ref : Nat
  elemId : String
  css : String
deriving DecidableEq, Repr

/-- An RxJS `BehaviorSubject<string>`: current value, whether
`complete()` has stopped it, and the values delivered to subscribers so
far. -/
structure SubjectState where
  value : String
  stopped : Bool
  delivered : List String
deriving DecidableEq, Repr

/-- The `subject.next(v)`: delivers `v` unless the subject is stopped. -/
def SubjectState.next (s : SubjectState) (v : String) : SubjectState :=
  if s.stopped then s
  else { value := v, stopped := false, delivered := s.delivered ++ [v] }

/-- The `subject.complete()`: stop the subject; no further values are ever
delivered. -/
def SubjectState.complete (s : SubjectState) : SubjectState :=
  { s with stopped := true }

/-- The `id` attribute of the injected global style element
(`MATHJAX_STYLE_ID`). -/
def MATHJAX_STYLE_ID : String := "mathjax-global-styles"

/-- Mutable state of `MathJaxService`. -/
structure ServiceState where
  isInitialized : Bool
  /-- The `this.mathJaxStyleElement` (reference, or null) -/
  mathJaxStyleElement : Option Nat
  /-- The `document.head`, in document order -/
  head : List HeadElem
  /-- allocator for fresh element identities -/
  nextRef : Nat
  lastRenderedDocumentSubject : SubjectState
  cssStylingSubject : SubjectState
deriving DecidableEq, Repr

/-- A freshly constructed service attached to an empty head. -/
def initialServiceState : ServiceState :=
  { isInitialized := false
    mathJaxStyleElement := none
    head := []
    nextRef := 0
    lastRenderedDocumentSubject := ⟨"", false, []⟩
    cssStylingSubject := ⟨"", false, []⟩ }

/-- The `removeGlobalMathJaxStyles()`: remove the previously attached style
element by reference; if the reference has been lost, fall back to
removing the element found by its fixed id. -/
def removeGlobalMathJaxStyles (st : ServiceState) : ServiceState :=
  match st.mathJaxStyleElement with
  | some r =>
    { st with
      head := st.head.filter (fun e => e.ref ≠ r),
      mathJaxStyleElement := none }
  | none =>
    match st.head.find? (fun e => e.elemId == MATHJAX_STYLE_ID) with
    | some e => { st with head := st.head.filter (fun x => x.ref ≠ e.ref) }
    | none => st

/-- The `injectGlobalMathJaxStyles(css)`: remove the existing style element,
then (for non-blank CSS) create a fresh style element with the fixed id
and append it to `document.head`. -/
def injectGlobalMathJaxStyles (css : String) (st : ServiceState) : ServiceState :=
  let st1 := removeGlobalMathJaxStyles st
  if trimChars css.toList = [] then st1
  else
    { st1 with
      head := st1.head ++ [⟨st1.nextRef, MATHJAX_STYLE_ID, css⟩],
      mathJaxStyleElement := some st1.nextRef,
      nextRef := st1.nextRef + 1 }

/-- Oracle for the external engine during one `renderDocument` call. -/
structure EngineEnv where
  /-- The `initialize()` body throws (adaptor/output-processor construction) -/
  initThrows : Bool
  /-- The `some e`: some engine operation inside the `try` block of
  `renderDocument` throws `e` -/
  engineError : Option String
  /-- The `adaptor.outerHTML(adaptor.body(doc.document))` on success -/
  engineHTML : String
  /-- The `adaptor.cssText(outputJax.styleSheet(doc))` on success -/
  engineCSS : String
deriving DecidableEq, Repr

/-- Engine-facing side effects of one `renderDocument` call. -/
structure RenderEffects where
  /-- The `mathjax.document(...)` calls -/
  engineDocsCreated : Nat
  /-- The `doc.renderPromise()` calls -/
  renderCalls : Nat
  /-- The `console.error('Document rendering error:', ...)` logs -/
  errorsLogged : Nat
deriving DecidableEq, Repr

/-- The all-zero render-effect record. -/
def RenderEffects.zero : RenderEffects := ⟨0, 0, 0⟩

/-- The `renderDocument(documentPath, htmlContent, renderConfig?)`.
`initialize()` is awaited outside the `try`, so an initialization error
propagates to the caller (`Except.error`); blank content short-circuits
before touching the engine; any engine error inside the `try` is caught,
logged, and turned into empty output.  The TeX input processor built by
`resetMathJaxState` feeds the engine, whose observable output is the
oracle's.  The engine error, when it occurs, is modelled as thrown by
`renderPromise` (after document creation). -/
def renderDocument (env : EngineEnv) (documentPath htmlContent : String)
    (renderConfig : Option AdditionalTexOptions) (st : ServiceState) :
    Except String (String × String) × ServiceState × RenderEffects :=
  -- `if (!this.isInitialized) { await this.initialize(); }`
  if st.isInitialized = false ∧ env.initThrows = true then
    (.error "Failed to initialize MathJax", st, RenderEffects.zero)
  else
    let st := { st with isInitialized := true }
    -- `if (htmlContent.trim() === '') return {mathHTML: '', mathCSS: ''};`
    if trimChars htmlContent.toList = [] then
      (.ok ("", ""), st, RenderEffects.zero)
    else
      match env.engineError with
      | some _ =>
        -- `catch (error) { console.error(...); return {mathHTML:'', mathCSS:''}; }`
        (.ok ("", ""), st, { engineDocsCreated := 1, renderCalls := 1, errorsLogged := 1 })
      | none =>
        let correctedMathHTML := fixAnchorLinks documentPath env.engineHTML
        let st := injectGlobalMathJaxStyles env.engineCSS st
        let st :=
          { st with
            lastRenderedDocumentSubject :=
              st.lastRenderedDocumentSubject.next documentPath }
        (.ok (correctedMathHTML, env.engineCSS), st,
         { engineDocsCreated := 1, renderCalls := 1, errorsLogged := 0 })

/-- The `reset()`: drop engine state, remove the global styles, and complete
both subjects. -/
def reset (st : ServiceState) : ServiceState :=
  let st := removeGlobalMathJaxStyles { st with isInitialized := false }
  { st with
    cssStylingSubject := st.cssStylingSubject.complete,
    lastRenderedDocumentSubject := st.lastRenderedDocumentSubject.complete }

/-- One externally triggerable operation on the service. -/
inductive SvcOp
  | render (env : EngineEnv) (path html : String) (cfg : Option AdditionalTexOptions)
  | resetOp
  | initializeOp (env : EngineEnv)
deriving Repr

/-- State effect of one operation. -/
def applySvcOp (st : ServiceState) : SvcOp → ServiceState
  | .render env path html cfg => (renderDocument env path html cfg st).2.1
  | .resetOp => reset st
  | .initializeOp env =>
    if st.isInitialized = false ∧ env.initThrows = false then
      { st with isInitialized := true }
    else st

/-- State after a sequence of operations. -/
def applySvcOps (st : ServiceState) (ops : List SvcOp) : ServiceState :=
  ops.foldl applySvcOp st

/-- Number of MathJax global style elements currently attached to the
head. -/
def styleCount (st : ServiceState) : Nat :=
  (st.head.filter (fun e => e.elemId == MATHJAX_STYLE_ID)).length

/-! ## C8: the document loader (`DocumentService`, `document.service.ts`)

`loadDocument` fetches text (the HTTP layer is an oracle), extracts
metadata with the precedence comment-JSON → YAML front matter → HTML
head elements, and strips the comment/front-matter forms from the
returned content.  `JSON.parse` is a platform capability and is passed
in as an oracle `jsonParse` (`none` = the JSON payload is malformed and
`JSON.parse` throws). -/

/-- Parsed document metadata (`DocumentMetadata`).  The source's
`section` field (a Lean keyword) is embedded as `sectionNum`; its inner
`Option` distinguishes a parsed integer from JS `parseInt`'s `NaN`. -/
structure DocumentMetadata where
  title : Option String := none
  author : Option String := none
  date : Option String := none
  sectionNum : Option (Option Int) := none
  description : Option String := none
deriving DecidableEq, Repr

/-- JS `parseInt(s, 10)`: skip leading whitespace, optional sign, then
digits; `none` models `NaN` (no digits). -/
def parseIntJS (s : List Char) : Option Int :=
  let t := s.dropWhile Char.isWhitespace
  let signed : Int × List Char :=
    match t with
    | '-' :: r => (-1, r)
    | '+' :: r => (1, r)
    | _ => (1, t)
  let digits := signed.2.takeWhile Char.isDigit
  if digits.isEmpty then none
  else some (signed.1 * digits.foldl (fun acc c => acc * 10 + (c.toNat - '0'.toNat : Int)) 0)

/-- Match the lazy capture `(.*?)-->` (s flag): the shortest run of any
characters up to the first `-->`; returns the capture and the remainder
after `-->`. -/
def captureUntilArrow : List Char → Option (List Char × List Char)
  | [] => none
  | c :: rest =>
    if ("-->".toList).isPrefixOf (c :: rest) then some ([], (c :: rest).drop 3)
    else
      match captureUntilArrow rest with
      | some (cap, suf) => some (c :: cap, suf)
      | none => none

/-- Try to match `<!--\s*METADATA:(.*?)-->` at the head of `s`:
the literal comment opener, greedy whitespace, the `METADATA:` marker,
then the lazy capture up to the first `-->`. -/
def tryMetaCommentAt (s : List Char) : Option (List Char × List Char) :=
  if ("<!--".toList).isPrefixOf s then
    let r := (s.drop 4).dropWhile Char.isWhitespace
    if ("METADATA:".toList).isPrefixOf r then captureUntilArrow (r.drop 9)
    else none
  else none

/-- First match of `/<!--\s*METADATA:(.*?)-->/s` in `s`: the prefix
before the match, the captured payload, and the suffix after the match. -/
def findMetaComment : List Char → Option (List Char × List Char × List Char)
  | [] => none
  | c :: rest =>
    match tryMetaCommentAt (c :: rest) with
    | some (cap, suf) => some ([], cap, suf)
    | none =>
      match findMetaComment rest with
      | some (pre, cap, suf) => some (c :: pre, cap, suf)
      | none => none

/-- Match `\s*\n` at the head of `s` with the regex engine's greedy
backtracking resolved: the whitespace consumed ends at the last `\n` of
the maximal whitespace run.  Used where no later backtracking into this
piece is possible. -/
def afterLastNewlineInWsRun (s : List Char) : Option (List Char) :=
  let w := s.takeWhile Char.isWhitespace
  let rest := s.dropWhile Char.isWhitespace
  if '\n' ∈ w then
    some ((w.reverse.takeWhile (fun c => c ≠ '\n')).reverse ++ rest)
  else none

/-- Try to match the front-matter terminator `\n---\s*\n` at the head of
`s`; returns the remainder after the full terminator. -/
def tryYamlEnd : List Char → Option (List Char)
  | '\n' :: r =>
    if ("---".toList).isPrefixOf r then afterLastNewlineInWsRun (r.drop 3)
    else none
  | _ => none

/-- Lazy scan for `(.*?)\n---\s*\n` (s flag): the shortest capture after
which the terminator matches; returns capture and remainder. -/
def findYamlEnd : List Char → Option (List Char × List Char)
  | [] => none
  | c :: rest =>
    match tryYamlEnd (c :: rest) with
    | some suf => some ([], suf)
    | none =>
      match findYamlEnd rest with
      | some (cap, suf) => some (c :: cap, suf)
      | none => none

/-- For the opening `\s*\n` of the front-matter regex, the candidate
remainders, one per `\n` of the maximal whitespace run `w` (in the order
produced, the earliest `\n` first). -/
def newlineCandidates : List Char → List Char → List (List Char)
  | [], _ => []
  | c :: w, rest =>
    (if c = '\n' then [w ++ rest] else []) ++ newlineCandidates w rest

/-- Try `findYamlEnd` on each candidate in turn, keeping the first
success (the regex engine's backtracking over the opening `\s*`). -/
def firstYamlMatch : List (List Char) → Option (List Char × List Char)
  | [] => none
  | c :: cs =>
    match findYamlEnd c with
    | some r => some r
    | none => firstYamlMatch cs

/-- Match `/^---\s*\n(.*?)\n---\s*\n/s` against the whole content
(anchored at the start): returns the captured front-matter body and the
remainder after the full match.  The opening `\s*\n` is resolved
greedily, backtracking to earlier newlines of the run if the rest of the
pattern fails. -/
def yamlFrontmatter (s : List Char) : Option (List Char × List Char) :=
  if ("---".toList).isPrefixOf s then
    let afterDashes := s.drop 3
    let w := afterDashes.takeWhile Char.isWhitespace
    let rest := afterDashes.dropWhile Char.isWhitespace
    firstYamlMatch (newlineCandidates w rest).reverse
  else none

/-- JS `value.startsWith(q) && value.endsWith(q)` quote stripping used by
the simple YAML parser. -/
def stripQuotes (v : List Char) : List Char :=
  if (v.head? = some '"' ∧ v.getLast? = some '"') ∨
     (v.head? = some '\'' ∧ v.getLast? = some '\'') then
    (v.drop 1).dropLast
  else v

/-- Lowercase a key (`key.toLowerCase()`, ASCII keys in practice). -/
def lowerChars (s : List Char) : List Char := s.map Char.toLower

/-- One line of `parseSimpleYaml`'s loop: skip blanks and `#` comments,
find the first `:`, trim key and value, strip quotes, and dispatch on
the lowercased key. -/
def parseSimpleYamlLine (metadata : DocumentMetadata) (line : List Char) :
    DocumentMetadata :=
  let trimmed := trimChars line
  if trimmed.isEmpty || trimmed.head? = some '#' then metadata
  else if ':' ∈ trimmed then
    let key := trimChars (trimmed.takeWhile (fun c => c ≠ ':'))
    let value0 := trimChars ((trimmed.dropWhile (fun c => c ≠ ':')).drop 1)
    let value := stripQuotes value0
    let k := lowerChars key
    if k = "title".toList then { metadata with title := some value.asString }
    else if k = "author".toList then { metadata with author := some value.asString }
    else if k = "date".toList then { metadata with date := some value.asString }
    else if k = "section".toList then { metadata with sectionNum := some (parseIntJS value) }
    else if k = "description".toList then { metadata with description := some value.asString }
    else metadata
  else metadata

/-- The `parseSimpleYaml(yamlText)`: fold the line parser over the lines. -/
def parseSimpleYaml (yamlText : List Char) : DocumentMetadata :=
  (yamlText.splitOn '\n').foldl parseSimpleYamlLine {}

/-- Case-insensitive prefix test (the regex `i` flag). -/
def ciIsPrefixOf (pat s : List Char) : Bool :=
  lowerChars (s.take pat.length) == lowerChars pat

/-- Match `(.*?)<\/title>` (no `s` flag: `.` excludes newlines) lazily:
capture up to the first case-insensitive `</title>`, failing on an
intervening newline. -/
def captureUntilTitleClose : List Char → Option (List Char)
  | [] => none
  | c :: rest =>
    if ciIsPrefixOf "</title>".toList (c :: rest) then some []
    else if c = '\n' then none
    else
      match captureUntilTitleClose rest with
      | some cap => some (c :: cap)
      | none => none

/-- First match of `/<title>(.*?)<\/title>/i`: the captured title (the
engine keeps scanning from later start positions when the closing tag is
missing or a newline intervenes). -/
def findTitleTag : List Char → Option (List Char)
  | [] => none
  | c :: rest =>
    if ciIsPrefixOf "<title>".toList (c :: rest) then
      match captureUntilTitleClose ((c :: rest).drop 7) with
      | some cap => some cap
      | none => findTitleTag rest
    else findTitleTag rest

/-- Try to match `<meta\s+name="([^"]+)"\s+content="([^"]+)"` at the head
of `s` (`i` flag on the literals); returns both captures and the
remainder after the match. -/
def tryMetaTagAt (s : List Char) : Option (List Char × List Char × List Char) :=
  if ciIsPrefixOf "<meta".toList s then
    let r0 := s.drop 5
    let ws := r0.takeWhile Char.isWhitespace
    if ws.isEmpty then none
    else
      let r1 := r0.dropWhile Char.isWhitespace
      if ciIsPrefixOf "name=\"".toList r1 then
        let nameCap := (r1.drop 6).takeWhile (fun c => c ≠ '"')
        let r2 := (r1.drop 6).dropWhile (fun c => c ≠ '"')
        if nameCap.isEmpty then none
        else
          match r2 with
          | '"' :: r3 =>
            let ws2 := r3.takeWhile Char.isWhitespace
            if ws2.isEmpty then none
            else
              let r4 := r3.dropWhile Char.isWhitespace
              if ciIsPrefixOf "content=\"".toList r4 then
                let contentCap := (r4.drop 9).takeWhile (fun c => c ≠ '"')
                let r5 := (r4.drop 9).dropWhile (fun c => c ≠ '"')
                if contentCap.isEmpty then none
                else
                  match r5 with
                  | '"' :: r6 => some (nameCap, contentCap, r6)
                  | _ => none
              else none
          | _ => none
      else none
  else none

/-- The `content.matchAll(/<meta\s+name="..." content="..."/gi)`: all matches
in order, scanning left to right and resuming after each match.  `fuel`
bounds the recursion (every step consumes at least one character). -/
def allMetaTags : Nat → List Char → List (List Char × List Char)
  | 0, _ => []
  | _ + 1, [] => []
  | fuel + 1, c :: rest =>
    match tryMetaTagAt (c :: rest) with
    | some (n, v, suf) => (n, v) :: allMetaTags fuel suf
    | none => allMetaTags fuel rest

/-- The `extractHtmlMetadata(content)`: title element plus named meta
elements; `none` when no recognized field is found. -/
def extractHtmlMetadata (content : List Char) : Option DocumentMetadata :=
  let md0 : DocumentMetadata :=
    match findTitleTag content with
    | some cap => { title := some (trimChars cap).asString }
    | none => {}
  let hasTitle := (findTitleTag content).isSome
  let step := fun (acc : DocumentMetadata × Bool) (nv : List Char × List Char) =>
    let (md, hasMd) := acc
    let n := lowerChars nv.1
    if n = "author".toList then ({ md with author := some nv.2.asString }, true)
    else if n = "date".toList then ({ md with date := some nv.2.asString }, true)
    else if n = "description".toList then ({ md with description := some nv.2.asString }, true)
    else if n = "mathjax-section".toList then ({ md with sectionNum := some (parseIntJS nv.2) }, true)
    else (md, hasMd)
  let result := (allMetaTags content.length content).foldl step (md0, hasTitle)
  if result.2 then some result.1 else none

/-- The YAML / HTML-head fallback of `extractMetadata`: exactly the code
after the comment-block branch. -/
def extractMetadataFallback (content : String) : Option DocumentMetadata :=
  match yamlFrontmatter content.toList with
  | some (body, _) => some (parseSimpleYaml body)
  | none => extractHtmlMetadata content.toList

/-- The `extractMetadata(content)`: comment-JSON form first (`jsonParse` is
the `JSON.parse` oracle; `none` = the payload is malformed and the parse
throws, after which the code falls through to the next form), then YAML
front matter, then HTML head elements. -/
def extractMetadata (jsonParse : String → Option DocumentMetadata)
    (content : String) : Option DocumentMetadata :=
  match findMetaComment content.toList with
  | some (_, cap, _) =>
    match jsonParse (trimChars cap).asString with
    | some metadata => some metadata
    | none => extractMetadataFallback content
  | none => extractMetadataFallback content

/-- The `content.replace(/<!--\s*METADATA:.*?-->/s, '')`: remove the first
comment-metadata block, when present. -/
def removeMetaComment (content : List Char) : List Char :=
  match findMetaComment content with
  | some (pre, _, suf) => pre ++ suf
  | none => content

/-- The `content.replace(/^---\s*\n.*?\n---\s*\n/s, '')`: remove the leading
YAML front matter, when present. -/
def removeYamlFrontmatter (content : List Char) : List Char :=
  match yamlFrontmatter content with
  | some (_, suf) => suf
  | none => content

/-- The `removeMetadataFromContent(content)`: strip the comment block, then
the front matter, then trim. -/
def removeMetadataFromContent (content : String) : String :=
  (trimChars (removeYamlFrontmatter (removeMetaComment content.toList))).asString

/-- The `loadDocument(path)`: the HTTP fetch is an oracle
(`fetchResult`); on success the metadata is extracted and stripped, on
failure the error is rethrown wrapped with the path. -/
def loadDocument (jsonParse : String → Option DocumentMetadata)
    (path : String) (fetchResult : Except String String) :
    Except String (String × Option DocumentMetadata) :=
  match fetchResult with
  | .error e => .error ("Failed to load document from " ++ path ++ ": " ++ e)
  | .ok content =>
    .ok (removeMetadataFromContent content, extractMetadata jsonParse content)

/-! ## C9: the document-home manifest display
(`DocumentHomeComponent.ngOnInit`)

The manifest's `files` array is sorted in place with
`a.display_name.localeCompare(b.display_name)` and assigned to
`latexFiles`, the displayed list.  `localeCompare` is an ICU capability
and enters as a comparator oracle; `Array.prototype.sort` with a
consistent comparator is modelled as a stable merge sort. -/

/-- One manifest entry (`WatchedFile`). -/
structure WatchedFile where
  file : String
  display_name : String
deriving DecidableEq, Repr

/-- The manifest (`Manifest`): output directory plus file entries. -/
structure Manifest where
  outputDir : String
  files : List WatchedFile
deriving DecidableEq, Repr

/-- The `manifest.files.sort((a, b) => a.display_name.localeCompare(b.display_name))`. -/
def sortManifestFiles (cmp : String → String → Int) (files : List WatchedFile) :
    List WatchedFile :=
  files.mergeSort (fun a b => decide (cmp a.display_name b.display_name ≤ 0))

/-- The value of `latexFiles` after `ngOnInit` processes `manifest`: the
displayed list. -/
def displayedFiles (cmp : String → String → Int) (manifest : Manifest) :
    List WatchedFile :=
  sortManifestFiles cmp manifest.files

/-! # Theorems -/

/-! ## C1: anchor-link rewriting -/

example :
    fixAnchorLinks "https://x/doc" "<a href=\"#eq1\">(1)</a>" =
      "<a href=\"https://x/doc#eq1\">(1)</a>" := by decide

example :
    fixAnchorLinks "https://x/doc" "<a href=\"https://old#eq1\">(1)</a>" =
      "<a href=\"https://x/doc#eq1\">(1)</a>" := by decide

/-- C1, counterexample.  The claim asserts that a fully-qualified link
with a path before the fragment, `href="https://old/doc#eq1"`, is also
rewritten to `href="<loc>#eq1"`.  It is not: the regex's origin part
`(?:https?:\/\/[^/#]+)?\/?#` only reaches the `#` across at most one
slash after the host, so the path segment `doc` blocks the match and the
link is left untouched — the output does not contain the claimed
rewritten link. -/
theorem C1_anchor_rewrite_counterexample :
    fixAnchorLinks "https://x/doc" "<a href=\"https://old/doc#eq1\">(1)</a>" =
      "<a href=\"https://old/doc#eq1\">(1)</a>" ∧
    hasSubstr
      (fixAnchorLinks "https://x/doc" "<a href=\"https://old/doc#eq1\">(1)</a>").toList
      ("href=\"https://x/doc#eq1\"".toList) = false := by
  decide

/-- C1, amended: for every documentLocation `loc`, `fixAnchorLinks`
rewrites `href="#eq1"` to `href="<loc>#eq1"`, and likewise rewrites a
fully-qualified link whose fragment follows the origin directly (at most
one slash after the host, no path segment), such as
`href="https://old/#eq1"`; a fully-qualified link with a path before the
fragment, such as `href="https://old/doc#eq1"`, is left unchanged. -/
theorem C1_anchor_rewrite_amended (loc : String) :
    fixAnchorLinks loc "<a href=\"#eq1\">(1)</a>" =
      "<a href=\"" ++ loc ++ "#eq1\">(1)</a>" ∧
    fixAnchorLinks loc "<a href=\"https://old/#eq1\">(1)</a>" =
      "<a href=\"" ++ loc ++ "#eq1\">(1)</a>" ∧
    fixAnchorLinks loc "<a href=\"https://old/doc#eq1\">(1)</a>" =
      "<a href=\"https://old/doc#eq1\">(1)</a>" := by
  refine ⟨rfl, rfl, rfl⟩

/-! ## C4/C5: renderDocument short-circuit and soft failure -/

/-- C4: for every document location, configuration (and service state and
engine behaviour), `renderDocument` with content that is blank after
trimming creates no engine document and performs no render call, and —
whenever the service is initialized or initialization succeeds — returns
`{mathHTML: '', mathCSS: ''}`. -/
theorem C4_renderDocument_blank_short_circuit
    (env : EngineEnv) (documentPath htmlContent : String)
    (renderConfig : Option AdditionalTexOptions) (st : ServiceState)
    (hblank : trimChars htmlContent.toList = []) :
    (renderDocument env documentPath htmlContent renderConfig st).2.2.engineDocsCreated = 0 ∧
    (renderDocument env documentPath htmlContent renderConfig st).2.2.renderCalls = 0 ∧
    (st.isInitialized = true ∨ env.initThrows = false →
      (renderDocument env documentPath htmlContent renderConfig st).1 = .ok ("", "")) := by
  unfold renderDocument
  by_cases h : st.isInitialized = false ∧ env.initThrows = true
  · refine ⟨by simp [h, RenderEffects.zero], by simp [h, RenderEffects.zero], ?_⟩
    rintro (h1 | h2)
    · rw [h.1] at h1; exact absurd h1 (by simp)
    · rw [h.2] at h2; exact absurd h2 (by simp)
  · simp [h, show trimChars htmlContent.data = [] from hblank, RenderEffects.zero]

/-- C4 witness: a concrete blank-input call on a fresh service with a
well-behaved engine. -/
theorem C4_renderDocument_blank_short_circuit_witness :
    trimChars ("  ".toList) = [] ∧
    ((renderDocument ⟨false, none, "H", "C"⟩ "loc" "  " none initialServiceState).2.2.engineDocsCreated = 0 ∧
     (renderDocument ⟨false, none, "H", "C"⟩ "loc" "  " none initialServiceState).2.2.renderCalls = 0 ∧
     (initialServiceState.isInitialized = true ∨ (⟨false, none, "H", "C"⟩ : EngineEnv).initThrows = false →
       (renderDocument ⟨false, none, "H", "C"⟩ "loc" "  " none initialServiceState).1 = .ok ("", ""))) :=
  ⟨by decide,
   C4_renderDocument_blank_short_circuit ⟨false, none, "H", "C"⟩ "loc" "  " none
     initialServiceState (by decide)⟩

/-- C5: whenever initialization is not the failing step, any internal
engine error during rendering is caught: `renderDocument` returns
`{mathHTML: '', mathCSS: ''}` as a normal result (no exception reaches
the caller) and logs the failure once. -/
theorem C5_renderDocument_fails_softly
    (env : EngineEnv) (documentPath htmlContent : String)
    (renderConfig : Option AdditionalTexOptions) (st : ServiceState) (e : String)
    (hinit : st.isInitialized = true ∨ env.initThrows = false)
    (herr : env.engineError = some e)
    (hne : trimChars htmlContent.toList ≠ []) :
    (renderDocument env documentPath htmlContent renderConfig st).1 = .ok ("", "") ∧
    (renderDocument env documentPath htmlContent renderConfig st).2.2.errorsLogged = 1 := by
  unfold renderDocument
  have h : ¬ (st.isInitialized = false ∧ env.initThrows = true) := by
    rintro ⟨h1, h2⟩
    rcases hinit with h3 | h3
    · rw [h1] at h3; exact absurd h3 (by simp)
    · rw [h2] at h3; exact absurd h3 (by simp)
  simp [h, show ¬ trimChars htmlContent.data = [] from hne, herr]

/-! ## C6: the configuration merge -/

/-- Lookup distributes over list append, preferring the left list. -/
theorem lookup_append_or (l1 l2 : List (String × String)) (k : String) :
    (l1 ++ l2).lookup k = (l1.lookup k).or (l2.lookup k) := by
  induction l1 with
  | nil => simp
  | cons p rest ih =>
    obtain ⟨k0, v0⟩ := p
    by_cases h : k = k0
    · simp [List.lookup_cons, h]
    · have hbeq : (k == k0) = false := beq_eq_false_iff_ne.mpr h
      simp [List.lookup_cons, hbeq, ih]

/-- Lookup in the base part of `objectSpread`: base keys keep their
position, with the override's value when the override also binds them. -/
theorem lookup_spread_base (ov : List (String × String)) :
    ∀ (base : List (String × String)) (k : String),
      ((base.map (fun p =>
          match ov.lookup p.1 with
          | some v => (p.1, v)
          | none => p)).lookup k)
        = match base.lookup k with
          | some v => some ((ov.lookup k).getD v)
          | none => none := by
  intro base
  induction base with
  | nil => intro k; simp
  | cons p rest ih =>
    intro k
    obtain ⟨k0, v0⟩ := p
    by_cases h : k = k0
    · subst h
      rcases hov : ov.lookup k with _ | u <;>
        simp [List.lookup_cons, hov]
    · have hbeq : (k == k0) = false := beq_eq_false_iff_ne.mpr h
      rcases hov : ov.lookup k0 with _ | u <;>
        simp [List.lookup_cons, hbeq, hov, ih]

/-- Lookup in a filtered list is unchanged when every entry with the
looked-up key passes the filter. -/
theorem lookup_filter_of_base_none (base : List (String × String))
    (k : String) (h : base.lookup k = none) :
    ∀ ov : List (String × String),
      (ov.filter (fun p => (base.lookup p.1).isNone)).lookup k = ov.lookup k := by
  intro ov
  induction ov with
  | nil => simp
  | cons p rest ih =>
    obtain ⟨k1, v1⟩ := p
    by_cases hk : k = k1
    · subst hk
      simp [List.filter_cons, h, List.lookup_cons]
    · have hbeq : (k == k1) = false := beq_eq_false_iff_ne.mpr hk
      rcases hp : (base.lookup k1).isNone with _ | _ <;>
        simp [List.filter_cons, hp, List.lookup_cons, hbeq, ih]

/-- The JS spread `{...base, ...override}` has exactly
"override wins, else base" lookup semantics. -/
theorem lookup_objectSpread (base ov : List (String × String)) (k : String) :
    (objectSpread base ov).lookup k = (ov.lookup k).or (base.lookup k) := by
  unfold objectSpread
  rw [lookup_append_or, lookup_spread_base]
  rcases hb : base.lookup k with _ | v
  · simp [lookup_filter_of_base_none base k hb ov]
  · rcases hov : ov.lookup k with _ | u <;> simp [hov]

/-- Membership in the deduplication pass: an element is kept iff it is in
the input and not already seen. -/
theorem mem_dedupFirstAux (a : String) :
    ∀ (l : List String) (seen : List String),
      a ∈ dedupFirstAux seen l ↔ a ∈ l ∧ a ∉ seen := by
  intro l
  induction l with
  | nil => intro seen; simp [dedupFirstAux]
  | cons x xs ih =>
    intro seen
    by_cases hx : x ∈ seen
    · rw [dedupFirstAux, if_pos hx, ih]
      constructor
      · rintro ⟨h1, h2⟩; exact ⟨List.mem_cons_of_mem _ h1, h2⟩
      · rintro ⟨h1, h2⟩
        rcases List.mem_cons.mp h1 with h3 | h3
        · exact absurd (h3 ▸ hx) h2
        · exact ⟨h3, h2⟩
    · rw [dedupFirstAux, if_neg hx]
      by_cases ha : a = x
      · subst ha; simp [hx]
      · constructor
        · intro hmem
          rcases List.mem_cons.mp hmem with h3 | h3
          · exact absurd h3 ha
          · obtain ⟨h4, h5⟩ := (ih (x :: seen)).mp h3
            exact ⟨List.mem_cons_of_mem _ h4,
              fun hseen => h5 (List.mem_cons_of_mem _ hseen)⟩
        · rintro ⟨h1, h2⟩
          rcases List.mem_cons.mp h1 with h3 | h3
          · exact absurd h3 ha
          · refine List.mem_cons_of_mem _ ((ih (x :: seen)).mpr ⟨h3, ?_⟩)
            intro hm
            rcases List.mem_cons.mp hm with h5 | h5
            · exact ha h5
            · exact h2 h5

/-- The deduplication pass produces a duplicate-free list. -/
theorem nodup_dedupFirstAux :
    ∀ (l : List String) (seen : List String), (dedupFirstAux seen l).Nodup := by
  intro l
  induction l with
  | nil => intro seen; simp [dedupFirstAux]
  | cons x xs ih =>
    intro seen
    by_cases hx : x ∈ seen
    · rw [dedupFirstAux, if_pos hx]; exact ih seen
    · rw [dedupFirstAux, if_neg hx]
      refine List.nodup_cons.mpr ⟨?_, ih (x :: seen)⟩
      intro hmem
      exact ((mem_dedupFirstAux x xs (x :: seen)).mp hmem).2 (List.mem_cons_self _ _)

/-- C6: the configuration merge (`resetMathJaxState` with overrides)
yields macros that are the shallow union with override precedence
(for disjoint keys, the plain union), and packages that are the
deduplicated union of base and override identifiers — except that a base
declared as all-packages makes the override's package list a no-op. -/
theorem C6_config_merge (allPackages : List String) (baseConfig : TexConfig)
    (cfg : AdditionalTexOptions) :
    (∀ k : String,
      ((resetMathJaxState allPackages baseConfig (some cfg)).macros.lookup k)
        = ((cfg.macros.getD []).lookup k).or (baseConfig.macros.lookup k)) ∧
    (baseConfig.packages ≠ allPackages →
      (∀ p : String,
          p ∈ (resetMathJaxState allPackages baseConfig (some cfg)).packages ↔
            p ∈ baseConfig.packages ∨ p ∈ cfg.packages.getD []) ∧
        (resetMathJaxState allPackages baseConfig (some cfg)).packages.Nodup) ∧
    (baseConfig.packages = allPackages →
      (resetMathJaxState allPackages baseConfig (some cfg)).packages = allPackages) := by
  have hre : resetMathJaxState allPackages baseConfig (some cfg) =
      { packages :=
          if baseConfig.packages ≠ allPackages then
            dedupFirstAux [] (baseConfig.packages ++ cfg.packages.getD [])
          else allPackages,
        macros := objectSpread baseConfig.macros (cfg.macros.getD []),
        tags := baseConfig.tags } := rfl
  refine ⟨fun k => ?_, fun hne => ⟨fun p => ?_, ?_⟩, fun hall => ?_⟩
  · rw [hre]
    exact lookup_objectSpread _ _ _
  · rw [hre]
    show p ∈ (if baseConfig.packages ≠ allPackages then
        dedupFirstAux [] (baseConfig.packages ++ cfg.packages.getD [])
      else allPackages) ↔ _
    rw [if_pos hne, mem_dedupFirstAux]
    simp
  · rw [hre]
    show (if baseConfig.packages ≠ allPackages then
        dedupFirstAux [] (baseConfig.packages ++ cfg.packages.getD [])
      else allPackages).Nodup
    rw [if_pos hne]
    exact nodup_dedupFirstAux _ _
  · rw [hre]
    show (if baseConfig.packages ≠ allPackages then
        dedupFirstAux [] (baseConfig.packages ++ cfg.packages.getD [])
      else allPackages) = allPackages
    rw [if_neg (by simp [hall])]

/-- C6 witness: a concrete merge with an overlapping macro key (`a`) and
an overlapping package (`ams`); evaluated at the spec's example,
`{a: "1"}` merged with `{a: "2", b: "3"}` gives `{a: "2", b: "3"}`. -/
theorem C6_config_merge_witness :
    (∀ k : String,
      ((resetMathJaxState ["__all__"]
          { packages := ["base", "ams"], macros := [("a", "1")], tags := "all" }
          (some { packages := some ["ams", "x"],
                  macros := some [("a", "2"), ("b", "3")] })).macros.lookup k)
        = ((({ packages := some ["ams", "x"],
               macros := some [("a", "2"), ("b", "3")] } : AdditionalTexOptions).macros.getD
                []).lookup k).or
            (({ packages := ["base", "ams"], macros := [("a", "1")],
                tags := "all" } : TexConfig).macros.lookup k)) ∧
    (resetMathJaxState ["__all__"]
        { packages := ["base", "ams"], macros := [("a", "1")], tags := "all" }
        (some { packages := some ["ams", "x"],
                macros := some [("a", "2"), ("b", "3")] })).macros =
      [("a", "2"), ("b", "3")] ∧
    (resetMathJaxState ["__all__"]
        { packages := ["base", "ams"], macros := [("a", "1")], tags := "all" }
        (some { packages := some ["ams", "x"],
                macros := some [("a", "2"), ("b", "3")] })).packages =
      ["base", "ams", "x"] :=
  ⟨(C6_config_merge ["__all__"]
      { packages := ["base", "ams"], macros := [("a", "1")], tags := "all" }
      { packages := some ["ams", "x"], macros := some [("a", "2"), ("b", "3")] }).1,
   by decide, by decide⟩

/-! ## C7: at most one global style element

The inductive invariant is the pair
"`styleCount ≤ 1`" and "every attached MathJax style element is the one
the service holds a reference to"; it is established at the initial
state and preserved by every operation. -/

/-- After `removeGlobalMathJaxStyles`, no MathJax style element remains
attached (removal by reference, together with the invariant that any
attached style element is the referenced one, or removal by id as the
fallback). -/
theorem removeGlobalMathJaxStyles_no_style (st : ServiceState)
    (h2 : ∀ e ∈ st.head, e.elemId = MATHJAX_STYLE_ID →
      st.mathJaxStyleElement = some e.ref) :
    ∀ e ∈ (removeGlobalMathJaxStyles st).head, e.elemId ≠ MATHJAX_STYLE_ID := by
  unfold removeGlobalMathJaxStyles
  rcases hm : st.mathJaxStyleElement with _ | r
  · have hfind : st.head.find? (fun e => e.elemId == MATHJAX_STYLE_ID) = none := by
      rw [List.find?_eq_none]
      intro e he
      by_cases hid : e.elemId = MATHJAX_STYLE_ID
      · have := h2 e he hid
        rw [hm] at this
        exact absurd this (by simp)
      · simp [hid]
    rw [hfind]
    intro e he hid
    have := h2 e he hid
    rw [hm] at this
    exact absurd this (by simp)
  · intro e he hid
    obtain ⟨he1, he2⟩ := List.mem_filter.mp he
    have := h2 e he1 hid
    rw [hm] at this
    injection this with hr
    simp [hr] at he2

/-- The `removeGlobalMathJaxStyles` never touches the subjects or the
initialization flag. -/
theorem removeGlobalMathJaxStyles_subjects (st : ServiceState) :
    (removeGlobalMathJaxStyles st).lastRenderedDocumentSubject =
      st.lastRenderedDocumentSubject ∧
    (removeGlobalMathJaxStyles st).cssStylingSubject = st.cssStylingSubject := by
  unfold removeGlobalMathJaxStyles
  constructor
  all_goals
    split
    · rfl
    · split <;> rfl

/-- A head with no MathJax style element has style count zero. -/
theorem styleCount_eq_zero (st : ServiceState)
    (h : ∀ e ∈ st.head, e.elemId ≠ MATHJAX_STYLE_ID) : styleCount st = 0 := by
  unfold styleCount
  rw [List.filter_eq_nil_iff.mpr (by intro e he; simp [h e he])]
  rfl

/-- The `injectGlobalMathJaxStyles` re-establishes the invariant: at most one
style element attached, and any attached one is the referenced one. -/
theorem injectGlobalMathJaxStyles_preserves (css : String) (st : ServiceState)
    (h2 : ∀ e ∈ st.head, e.elemId = MATHJAX_STYLE_ID →
      st.mathJaxStyleElement = some e.ref) :
    styleCount (injectGlobalMathJaxStyles css st) ≤ 1 ∧
    ∀ e ∈ (injectGlobalMathJaxStyles css st).head, e.elemId = MATHJAX_STYLE_ID →
      (injectGlobalMathJaxStyles css st).mathJaxStyleElement = some e.ref := by
  have hno := removeGlobalMathJaxStyles_no_style st h2
  unfold injectGlobalMathJaxStyles
  by_cases hb : trimChars css.toList = []
  · rw [if_pos hb]
    refine ⟨?_, fun e he hid => absurd hid (hno e he)⟩
    rw [styleCount_eq_zero _ hno]
    exact Nat.zero_le 1
  · rw [if_neg hb]
    constructor
    · show (List.filter (fun e => e.elemId == MATHJAX_STYLE_ID)
          ((removeGlobalMathJaxStyles st).head ++
            [{ ref := (removeGlobalMathJaxStyles st).nextRef,
               elemId := MATHJAX_STYLE_ID, css := css }])).length ≤ 1
      rw [List.filter_append,
        List.filter_eq_nil_iff.mpr (by intro e he; simp [hno e he])]
      simp
    · intro e he hid
      have he' : e ∈ (removeGlobalMathJaxStyles st).head ++
          [{ ref := (removeGlobalMathJaxStyles st).nextRef,
             elemId := MATHJAX_STYLE_ID, css := css }] := he
      rcases List.mem_append.mp he' with h | h
      · exact absurd hid (hno e h)
      · rcases List.mem_singleton.mp h with rfl
        rfl

/-- Every service operation preserves the style invariant. -/
theorem applySvcOp_preserves_styles (st : ServiceState) (op : SvcOp)
    (h1 : styleCount st ≤ 1)
    (h2 : ∀ e ∈ st.head, e.elemId = MATHJAX_STYLE_ID →
      st.mathJaxStyleElement = some e.ref) :
    styleCount (applySvcOp st op) ≤ 1 ∧
    ∀ e ∈ (applySvcOp st op).head, e.elemId = MATHJAX_STYLE_ID →
      (applySvcOp st op).mathJaxStyleElement = some e.ref := by
  cases op with
  | resetOp =>
    have hno := removeGlobalMathJaxStyles_no_style
      { st with isInitialized := false } h2
    refine ⟨?_, fun e he hid => absurd hid (hno e he)⟩
    have : styleCount (applySvcOp st .resetOp) =
        styleCount (removeGlobalMathJaxStyles { st with isInitialized := false }) := rfl
    rw [this, styleCount_eq_zero _ hno]
    exact Nat.zero_le 1
  | initializeOp env =>
    by_cases hc : st.isInitialized = false ∧ env.initThrows = false
    · have hstate : applySvcOp st (.initializeOp env) = { st with isInitialized := true } := by
        show (if st.isInitialized = false ∧ env.initThrows = false
          then { st with isInitialized := true } else st) = _
        rw [if_pos hc]
      rw [hstate]
      exact ⟨h1, h2⟩
    · have hstate : applySvcOp st (.initializeOp env) = st := by
        show (if st.isInitialized = false ∧ env.initThrows = false
          then { st with isInitialized := true } else st) = st
        rw [if_neg hc]
      rw [hstate]
      exact ⟨h1, h2⟩
  | render env path html cfg =>
    by_cases hinit : st.isInitialized = false ∧ env.initThrows = true
    · have hstate : applySvcOp st (.render env path html cfg) = st := by
        show (renderDocument env path html cfg st).2.1 = st
        unfold renderDocument
        rw [if_pos hinit]
      rw [hstate]
      exact ⟨h1, h2⟩
    · by_cases hb : trimChars html.toList = []
      · have hstate : applySvcOp st (.render env path html cfg) =
            { st with isInitialized := true } := by
          show (renderDocument env path html cfg st).2.1 = _
          unfold renderDocument
          rw [if_neg hinit, if_pos hb]
        rw [hstate]
        exact ⟨h1, h2⟩
      · rcases he : env.engineError with _ | e
        · have hstate : applySvcOp st (.render env path html cfg) =
              { injectGlobalMathJaxStyles env.engineCSS { st with isInitialized := true } with
                lastRenderedDocumentSubject :=
                  (injectGlobalMathJaxStyles env.engineCSS
                    { st with isInitialized := true }).lastRenderedDocumentSubject.next path } := by
            show (renderDocument env path html cfg st).2.1 = _
            unfold renderDocument
            rw [if_neg hinit, if_neg hb, he]
          rw [hstate]
          have hpair := injectGlobalMathJaxStyles_preserves env.engineCSS
            { st with isInitialized := true } h2
          exact ⟨hpair.1, hpair.2⟩
        · have hstate : applySvcOp st (.render env path html cfg) =
              { st with isInitialized := true } := by
            show (renderDocument env path html cfg st).2.1 = _
            unfold renderDocument
            rw [if_neg hinit, if_neg hb, he]
          rw [hstate]
          exact ⟨h1, h2⟩

/-- The style invariant holds along every operation sequence. -/
theorem applySvcOps_preserves_styles (ops : List SvcOp) :
    ∀ st : ServiceState,
      styleCount st ≤ 1 →
      (∀ e ∈ st.head, e.elemId = MATHJAX_STYLE_ID →
        st.mathJaxStyleElement = some e.ref) →
      styleCount (applySvcOps st ops) ≤ 1 ∧
      ∀ e ∈ (applySvcOps st ops).head, e.elemId = MATHJAX_STYLE_ID →
        (applySvcOps st ops).mathJaxStyleElement = some e.ref := by
  induction ops with
  | nil => intro st h1 h2; exact ⟨h1, h2⟩
  | cons op rest ih =>
    intro st h1 h2
    have hstep := applySvcOp_preserves_styles st op h1 h2
    have : applySvcOps st (op :: rest) = applySvcOps (applySvcOp st op) rest := rfl
    rw [this]
    exact ih (applySvcOp st op) hstep.1 hstep.2

/-- C7: starting from a freshly constructed service (empty head), after
any sequence of render / style-injection / reset operations at most one
MathJax global style element is attached to the document head. -/
theorem C7_at_most_one_style (ops : List SvcOp) :
    styleCount (applySvcOps initialServiceState ops) ≤ 1 :=
  (applySvcOps_preserves_styles ops initialServiceState
    (by decide)
    (by intro e he hid; exact absurd he (by simp [initialServiceState]))).1

/-! ## C10: no deliveries on lastRenderedDocument$ after reset -/

/-- The `next` on a stopped subject is the identity. -/
theorem SubjectState_next_stopped (s : SubjectState) (v : String)
    (h : s.stopped = true) : s.next v = s := by
  unfold SubjectState.next
  rw [if_pos h]

/-- The `complete` on a stopped subject is the identity. -/
theorem SubjectState_complete_stopped (s : SubjectState)
    (h : s.stopped = true) : s.complete = s := by
  unfold SubjectState.complete
  cases s
  simp_all

/-- Once the last-rendered-document subject is stopped, no service
operation changes it. -/
theorem applySvcOp_subject_frozen (st : ServiceState) (op : SvcOp)
    (h : st.lastRenderedDocumentSubject.stopped = true) :
    (applySvcOp st op).lastRenderedDocumentSubject =
      st.lastRenderedDocumentSubject := by
  cases op with
  | resetOp =>
    show (reset st).lastRenderedDocumentSubject = _
    unfold reset
    have hrm := (removeGlobalMathJaxStyles_subjects
      { st with isInitialized := false }).1
    rw [show ({ st with isInitialized := false } : ServiceState).lastRenderedDocumentSubject
        = st.lastRenderedDocumentSubject from rfl] at hrm
    show (removeGlobalMathJaxStyles
      { st with isInitialized := false }).lastRenderedDocumentSubject.complete = _
    rw [hrm, SubjectState_complete_stopped _ h]
  | initializeOp env =>
    show (if st.isInitialized = false ∧ env.initThrows = false
        then { st with isInitialized := true } else st).lastRenderedDocumentSubject = _
    by_cases hc : st.isInitialized = false ∧ env.initThrows = false
    · rw [if_pos hc]
    · rw [if_neg hc]
  | render env path html cfg =>
    show (renderDocument env path html cfg st).2.1.lastRenderedDocumentSubject = _
    unfold renderDocument
    by_cases hinit : st.isInitialized = false ∧ env.initThrows = true
    · rw [if_pos hinit]
    · rw [if_neg hinit]
      by_cases hb : trimChars html.toList = []
      · rw [if_pos hb]
      · rw [if_neg hb]
        rcases he : env.engineError with _ | e
        · have hinj := (removeGlobalMathJaxStyles_subjects
            { st with isInitialized := true }).1
          have hinj2 : (injectGlobalMathJaxStyles env.engineCSS
              { st with isInitialized := true }).lastRenderedDocumentSubject =
              st.lastRenderedDocumentSubject := by
            unfold injectGlobalMathJaxStyles
            by_cases hcss : trimChars env.engineCSS.toList = []
            · rw [if_pos hcss]; exact hinj
            · rw [if_neg hcss]; exact hinj
          show (injectGlobalMathJaxStyles env.engineCSS
              { st with isInitialized := true }).lastRenderedDocumentSubject.next path = _
          rw [hinj2, SubjectState_next_stopped _ _ h]
        · rfl

/-- A stopped last-rendered-document subject stays untouched along any
operation sequence. -/
theorem applySvcOps_subject_frozen (ops : List SvcOp) :
    ∀ st : ServiceState, st.lastRenderedDocumentSubject.stopped = true →
      (applySvcOps st ops).lastRenderedDocumentSubject =
        st.lastRenderedDocumentSubject := by
  induction ops with
  | nil => intro st _; rfl
  | cons op rest ih =>
    intro st h
    have hstep := applySvcOp_subject_frozen st op h
    have : applySvcOps st (op :: rest) = applySvcOps (applySvcOp st op) rest := rfl
    rw [this, ih (applySvcOp st op) (by rw [hstep]; exact h), hstep]

/-- The `reset` stops the last-rendered-document subject without delivering
anything new. -/
theorem reset_stops_subject (st : ServiceState) :
    (reset st).lastRenderedDocumentSubject.stopped = true ∧
    (reset st).lastRenderedDocumentSubject.delivered =
      st.lastRenderedDocumentSubject.delivered := by
  unfold reset
  have hrm := (removeGlobalMathJaxStyles_subjects
    { st with isInitialized := false }).1
  constructor
  · rfl
  · show ((removeGlobalMathJaxStyles
      { st with isInitialized := false }).lastRenderedDocumentSubject.complete).delivered = _
    rw [hrm]
    rfl

/-- C10: once `reset()` has completed the subjects, no later operation
sequence delivers another value on `lastRenderedDocument$` — in
particular a later successful `renderDocument` still succeeds and
returns the corrected HTML and CSS, yet its document-path emission is a
no-op for observers. -/
theorem C10_no_delivery_after_reset (st : ServiceState) (ops : List SvcOp)
    (env : EngineEnv) (path html : String) (cfg : Option AdditionalTexOptions)
    (hinit : env.initThrows = false)
    (herr : env.engineError = none)
    (hne : trimChars html.toList ≠ []) :
    ((applySvcOps (reset st) ops).lastRenderedDocumentSubject.delivered
      = st.lastRenderedDocumentSubject.delivered) ∧
    ((renderDocument env path html cfg (applySvcOps (reset st) ops)).1
      = .ok (fixAnchorLinks path env.engineHTML, env.engineCSS)) ∧
    ((renderDocument env path html cfg
        (applySvcOps (reset st) ops)).2.1.lastRenderedDocumentSubject.delivered
      = st.lastRenderedDocumentSubject.delivered) := by
  obtain ⟨hstop, hdel⟩ := reset_stops_subject st
  have hops := applySvcOps_subject_frozen ops (reset st) hstop
  have hfrozen := applySvcOp_subject_frozen (applySvcOps (reset st) ops)
    (.render env path html cfg) (by rw [hops]; exact hstop)
  refine ⟨by rw [hops, hdel], ?_, ?_⟩
  · unfold renderDocument
    rw [if_neg (by rintro ⟨_, hthrow⟩; rw [hinit] at hthrow; exact absurd hthrow (by simp)),
      if_neg hne, herr]
  · have : (renderDocument env path html cfg (applySvcOps (reset st) ops)).2.1 =
        applySvcOp (applySvcOps (reset st) ops) (.render env path html cfg) := rfl
    rw [this, hfrozen, hops, hdel]

/-- C10 witness: after a reset of a fresh service (with no further
operations), a concrete successful render returns its output while the
subject delivers nothing. -/
theorem C10_no_delivery_after_reset_witness :
    ((⟨false, none, "<b>H</b>", "c"⟩ : EngineEnv).initThrows = false) ∧
    ((⟨false, none, "<b>H</b>", "c"⟩ : EngineEnv).engineError = none) ∧
    trimChars ("h".toList) ≠ [] ∧
    (((applySvcOps (reset initialServiceState) []).lastRenderedDocumentSubject.delivered
        = initialServiceState.lastRenderedDocumentSubject.delivered) ∧
     ((renderDocument ⟨false, none, "<b>H</b>", "c"⟩ "p" "h" none
          (applySvcOps (reset initialServiceState) [])).1
        = .ok (fixAnchorLinks "p" "<b>H</b>", "c")) ∧
     ((renderDocument ⟨false, none, "<b>H</b>", "c"⟩ "p" "h" none
          (applySvcOps (reset initialServiceState) [])).2.1.lastRenderedDocumentSubject.delivered
        = initialServiceState.lastRenderedDocumentSubject.delivered)) :=
  ⟨rfl, rfl, by decide,
   C10_no_delivery_after_reset initialServiceState [] ⟨false, none, "<b>H</b>", "c"⟩
     "p" "h" none rfl rfl (by decide)⟩

/-! ## C9: manifest sorting -/

/-- A list permuting a two-element list is one of its two arrangements. -/
theorem perm_pair_cases {α : Type} {l : List α} {x y : α}
    (h : l.Perm [x, y]) : l = [x, y] ∨ l = [y, x] := by
  have hlen := h.length_eq
  cases l with
  | nil => simp at hlen
  | cons a t =>
    cases t with
    | nil => simp at hlen
    | cons b t2 =>
      cases t2 with
      | cons c t3 => simp at hlen
      | nil =>
        have ha : a ∈ [x, y] := h.subset (by simp)
        rcases (by simpa using ha : a = x ∨ a = y) with rfl | rfl
        · have hb : b ∈ [y] := h.cons_inv.subset (by simp)
          rcases (by simpa using hb : b = y) with rfl
          exact Or.inl rfl
        · have h2 : [a, b].Perm [a, x] := h.trans (List.Perm.swap _ _ _)
          have hb : b ∈ [x] := h2.cons_inv.subset (by simp)
          rcases (by simpa using hb : b = x) with rfl
          exact Or.inr rfl

/-- C9: for every manifest and every consistent locale comparator, the
displayed list is a permutation of the manifest's files, sorted by
`display_name` under the comparator; in particular (for any comparator
placing Alpha before Beta, as every locale does) the manifest listing
Beta then Alpha is displayed Alpha, Beta. -/
theorem C9_manifest_sorted (cmp : String → String → Int) (manifest : Manifest)
    (htrans : ∀ a b c : String, cmp a b ≤ 0 → cmp b c ≤ 0 → cmp a c ≤ 0)
    (htotal : ∀ a b : String, cmp a b ≤ 0 ∨ cmp b a ≤ 0)
    (hAB : cmp "Alpha" "Beta" ≤ 0)
    (hBA : ¬ cmp "Beta" "Alpha" ≤ 0) :
    (displayedFiles cmp manifest).Perm manifest.files ∧
    List.Pairwise (fun a b => cmp a.display_name b.display_name ≤ 0)
      (displayedFiles cmp manifest) ∧
    displayedFiles cmp
        { outputDir := "./assets/docs",
          files := [{ file := "b.html", display_name := "Beta" },
                    { file := "a.html", display_name := "Alpha" }] } =
      [{ file := "a.html", display_name := "Alpha" },
       { file := "b.html", display_name := "Beta" }] := by
  have htransB : ∀ a b c : WatchedFile,
      decide (cmp a.display_name b.display_name ≤ 0) = true →
      decide (cmp b.display_name c.display_name ≤ 0) = true →
      decide (cmp a.display_name c.display_name ≤ 0) = true := by
    intro a b c hab hbc
    exact decide_eq_true (htrans _ _ _ (of_decide_eq_true hab) (of_decide_eq_true hbc))
  have htotalB : ∀ a b : WatchedFile,
      (decide (cmp a.display_name b.display_name ≤ 0) ||
       decide (cmp b.display_name a.display_name ≤ 0)) = true := by
    intro a b
    rcases htotal a.display_name b.display_name with h | h
    · rw [Bool.or_eq_true]; exact Or.inl (decide_eq_true h)
    · rw [Bool.or_eq_true]; exact Or.inr (decide_eq_true h)
  have hsorted : ∀ files : List WatchedFile,
      List.Pairwise (fun a b => cmp a.display_name b.display_name ≤ 0)
        (sortManifestFiles cmp files) := by
    intro files
    have hp := List.sorted_mergeSort htransB htotalB files
    exact hp.imp (fun h => of_decide_eq_true h)
  refine ⟨List.mergeSort_perm _ _, hsorted manifest.files, ?_⟩
  have hperm : (displayedFiles cmp
      { outputDir := "./assets/docs",
        files := [{ file := "b.html", display_name := "Beta" },
                  { file := "a.html", display_name := "Alpha" }] }).Perm
      [{ file := "b.html", display_name := "Beta" },
       { file := "a.html", display_name := "Alpha" }] :=
    List.mergeSort_perm _ _
  rcases perm_pair_cases hperm with hbad | hgood
  · have hs := hsorted [{ file := "b.html", display_name := "Beta" },
      { file := "a.html", display_name := "Alpha" }]
    rw [show sortManifestFiles cmp
        [{ file := "b.html", display_name := "Beta" },
         { file := "a.html", display_name := "Alpha" }] =
      displayedFiles cmp
        { outputDir := "./assets/docs",
          files := [{ file := "b.html", display_name := "Beta" },
                    { file := "a.html", display_name := "Alpha" }] } from rfl,
      hbad] at hs
    rcases List.pairwise_cons.mp hs with ⟨hrel, _⟩
    exact absurd
      (hrel { file := "a.html", display_name := "Alpha" } (by simp)) hBA
  · exact hgood

/-- C9 witness: the spec's example manifest under a concrete comparator
(comparison of leading code units, which orders Alpha before Beta like
every locale). -/
theorem C9_manifest_sorted_witness :
    (displayedFiles
        (fun a b =>
          ((a.toList.head?.map (fun c => (c.toNat : Int))).getD 0) -
          ((b.toList.head?.map (fun c => (c.toNat : Int))).getD 0))
        { outputDir := "./assets/docs",
          files := [{ file := "b.html", display_name := "Beta" },
                    { file := "a.html", display_name := "Alpha" }] }).Perm
      [{ file := "b.html", display_name := "Beta" },
       { file := "a.html", display_name := "Alpha" }] ∧
    List.Pairwise (fun a b : WatchedFile =>
        (((a.display_name.toList.head?.map (fun c => (c.toNat : Int))).getD 0) -
         ((b.display_name.toList.head?.map (fun c => (c.toNat : Int))).getD 0) : Int) ≤ 0)
      (displayedFiles
        (fun a b =>
          ((a.toList.head?.map (fun c => (c.toNat : Int))).getD 0) -
          ((b.toList.head?.map (fun c => (c.toNat : Int))).getD 0))
        { outputDir := "./assets/docs",
          files := [{ file := "b.html", display_name := "Beta" },
                    { file := "a.html", display_name := "Alpha" }] }) ∧
    displayedFiles
        (fun a b =>
          ((a.toList.head?.map (fun c => (c.toNat : Int))).getD 0) -
          ((b.toList.head?.map (fun c => (c.toNat : Int))).getD 0))
        { outputDir := "./assets/docs",
          files := [{ file := "b.html", display_name := "Beta" },
                    { file := "a.html", display_name := "Alpha" }] } =
      [{ file := "a.html", display_name := "Alpha" },
       { file := "b.html", display_name := "Beta" }] :=
  C9_manifest_sorted
    (fun a b =>
      ((a.toList.head?.map (fun c => (c.toNat : Int))).getD 0) -
      ((b.toList.head?.map (fun c => (c.toNat : Int))).getD 0))
    { outputDir := "./assets/docs",
      files := [{ file := "b.html", display_name := "Beta" },
                { file := "a.html", display_name := "Alpha" }] }
    (by intro a b c hab hbc; dsimp only at hab hbc ⊢; omega)
    (by intro a b; dsimp only; omega)
    (by decide)
    (by decide)

/-! ## C8: malformed comment-metadata falls back without failing -/

/-- C8: when the structured comment block is present but its JSON payload
is malformed (`JSON.parse` throws), metadata extraction falls back to
the non-block forms (YAML front matter / HTML head scan) — the result
carries nothing from the block — while the load still succeeds and the
returned body has the comment block stripped (the text around the block,
front-matter-stripped and trimmed). -/
theorem C8_malformed_metadata_fallback
    (jsonParse : String → Option DocumentMetadata) (path content : String)
    (pre cap suf : List Char)
    (hblock : findMetaComment content.toList = some (pre, cap, suf))
    (hbad : jsonParse (trimChars cap).asString = none) :
    extractMetadata jsonParse content = extractMetadataFallback content ∧
    loadDocument jsonParse path (.ok content) =
      .ok (removeMetadataFromContent content,
           extractMetadataFallback content) ∧
    removeMetadataFromContent content =
      (trimChars (removeYamlFrontmatter (pre ++ suf))).asString := by
  have hext : extractMetadata jsonParse content = extractMetadataFallback content := by
    unfold extractMetadata
    rw [hblock]
    show (match jsonParse (trimChars cap).asString with
      | some metadata => some metadata
      | none => extractMetadataFallback content) = extractMetadataFallback content
    rw [hbad]
  refine ⟨hext, ?_, ?_⟩
  · unfold loadDocument
    show Except.ok (removeMetadataFromContent content, extractMetadata jsonParse content) = _
    rw [hext]
  · unfold removeMetadataFromContent removeMetaComment
    rw [hblock]

/-- C8 witness: a malformed comment block in a concrete document; the
body is returned with the block stripped and no metadata at all
results. -/
theorem C8_malformed_metadata_fallback_witness :
    findMetaComment ("<!-- METADATA: {bad} -->\nHello".toList) =
      some ([], " {bad} ".toList, "\nHello".toList) ∧
    ((fun _ => none) : String → Option DocumentMetadata)
        (trimChars (" {bad} ".toList)).asString = none ∧
    (extractMetadata (fun _ => none) "<!-- METADATA: {bad} -->\nHello" =
      extractMetadataFallback "<!-- METADATA: {bad} -->\nHello" ∧
     loadDocument (fun _ => none) "doc.html" (.ok "<!-- METADATA: {bad} -->\nHello") =
      .ok (removeMetadataFromContent "<!-- METADATA: {bad} -->\nHello",
           extractMetadataFallback "<!-- METADATA: {bad} -->\nHello") ∧
     removeMetadataFromContent "<!-- METADATA: {bad} -->\nHello" =
      (trimChars (([] : List Char) ++ "\nHello".toList)).asString) ∧
    extractMetadataFallback "<!-- METADATA: {bad} -->\nHello" = none ∧
    removeMetadataFromContent "<!-- METADATA: {bad} -->\nHello" = "Hello" :=
  ⟨by decide, rfl,
   C8_malformed_metadata_fallback (fun _ => none) "doc.html"
     "<!-- METADATA: {bad} -->\nHello" [] (" {bad} ".toList) ("\nHello".toList)
     (by decide) rfl,
   by decide, by decide⟩

/-- The `handleError` always leaves a non-empty error message exposed. -/
theorem handleError_errorMessage_ne (st : CompState) (msg : String) :
    (handleError st msg).errorMessage ≠ "" := by
  unfold handleError
  by_cases h : msg = "" <;> simp [h]

/-- Any `processContent` run that reaches the pipeline (non-blank content,
skip test failing) performs exactly one markdown conversion. -/
theorem processContent_pipeline_markdown (env : PipelineEnv) (st : CompState)
    (hne : trimChars st.content.toList ≠ [])
    (hskip : ¬ (st.content = st.lastProcessedContent ∧ st.isProcessing = false)) :
    (processContent env st).2.markdownConversions = 1 := by
  unfold processContent
  rw [if_neg hne, if_neg hskip]
  rcases henv : env.componentsError with _ | e <;>
    rcases henv2 : env.renderError with _ | e2 <;>
    by_cases hc : env.hasContainer = true <;>
    by_cases hen : st.componentsEnabled = true ∧ st.enableDynamicComponents = true <;>
    simp [hc, hen, henv, henv2, RunEffects.zero]

/-- C2, counterexample.  Blank content is handled before the idempotence
test: `processContent` with `content = ""` runs `clearContent`, which
records `""` as the last processed content.  The resulting state is a
fixed point satisfying the claim's hypothesis (`""` recorded as last
processed, not mid-processing), yet a second `processContent` call for
the same content again tears down components and writes the DOM. -/
theorem C2_process_idempotent_counterexample :
    (let st : CompState :=
      { content := "", enableDynamicComponents := true, componentsEnabled := true,
        lastProcessedContent := "", isProcessing := false,
        processingStage := .complete, errorMessage := "", componentCount := 0 };
     let env : PipelineEnv :=
      { hasContainer := true, componentsError := none, renderError := none,
        createdComponents := 0 };
     st.lastProcessedContent = st.content ∧
     st.isProcessing = false ∧
     (processContent env st).1 = st ∧
     (processContent env st).2.teardowns = 1 ∧
     (processContent env st).2.domUpdates = 1) := by
  decide

/-- C2, amended: for every content `x` that is non-blank after trimming,
once a `processContent` run for `x` has completed (`x` recorded as last
processed content, not mid-processing), a further `processContent` call
with the same `x` is a complete no-op: state unchanged and every effect
counter zero (no markdown conversion, DOM update, teardown, expansion,
typeset call, or completion event). -/
theorem C2_process_idempotent_amended (env : PipelineEnv) (st : CompState)
    (hne : trimChars st.content.toList ≠ [])
    (hlast : st.lastProcessedContent = st.content)
    (hproc : st.isProcessing = false) :
    processContent env st = (st, RunEffects.zero) := by
  unfold processContent
  rw [if_neg hne, if_pos ⟨hlast.symm, hproc⟩]

/-- C2 witness: a concrete completed state for non-blank content. -/
theorem C2_process_idempotent_amended_witness :
    trimChars ("x".toList) ≠ [] ∧
    processContent
      ⟨true, none, none, 0⟩
      { content := "x", enableDynamicComponents := true, componentsEnabled := true,
        lastProcessedContent := "x", isProcessing := false,
        processingStage := .complete, errorMessage := "", componentCount := 0 } =
      ({ content := "x", enableDynamicComponents := true, componentsEnabled := true,
         lastProcessedContent := "x", isProcessing := false,
         processingStage := .complete, errorMessage := "", componentCount := 0 },
       RunEffects.zero) :=
  ⟨by decide,
   C2_process_idempotent_amended ⟨true, none, none, 0⟩ _ (by decide) rfl rfl⟩

/-- C3: if the `processContent(x)` pipeline is entered (non-blank new
content, a fresh call) and one of the fallible stages throws, then the
component ends in the error state (`statusClass() = 'error'`), exposes a
non-empty causing error, emits exactly one error signal and no
completion signal, and does not record `x` as the last processed
content; consequently a subsequent `processContent` call with the same
`x` is not a no-op: it re-enters the pipeline (performing its markdown
conversion) under any environment. -/
theorem C3_process_error_path (env env2 : PipelineEnv) (st : CompState)
    (hne : trimChars st.content.toList ≠ [])
    (hproc : st.isProcessing = false)
    (hdiff : st.content ≠ st.lastProcessedContent)
    (hcont : env.hasContainer = true)
    (hthrow : stageThrows env st = true) :
    statusClass (processContent env st).1 = "error" ∧
    (processContent env st).1.errorMessage ≠ "" ∧
    (processContent env st).2.errorEvents = 1 ∧
    (processContent env st).2.completionEvents = 0 ∧
    (processContent env st).1.lastProcessedContent = st.lastProcessedContent ∧
    (processContent env st).1.lastProcessedContent ≠ st.content ∧
    (processContent env st).1.content = st.content ∧
    (processContent env2 (processContent env st).1).2.markdownConversions = 1 := by
  have hskip : ¬ (st.content = st.lastProcessedContent ∧ st.isProcessing = false) := by
    rintro ⟨h1, _⟩; exact hdiff h1
  have hmain :
      (processContent env st).1.errorMessage ≠ "" ∧
      (processContent env st).2.errorEvents = 1 ∧
      (processContent env st).2.completionEvents = 0 ∧
      (processContent env st).1.lastProcessedContent = st.lastProcessedContent ∧
      (processContent env st).1.isProcessing = false ∧
      (processContent env st).1.content = st.content := by
    unfold processContent
    rw [if_neg hne, if_neg hskip]
    unfold stageThrows componentsRun at hthrow
    by_cases hen : st.componentsEnabled = true ∧ st.enableDynamicComponents = true
    · rw [if_pos (by rw [hen.1, hen.2]; rfl)] at hthrow
      rcases henv : env.componentsError with _ | e
      · rcases henv2 : env.renderError with _ | e2
        · rw [henv, henv2] at hthrow; simp at hthrow
        · simp only [hcont, if_true, hen, and_self, henv, henv2]
          refine ⟨handleError_errorMessage_ne _ _, by simp [handleError], ?_⟩
          simp [handleError, RunEffects.zero]
      · simp only [hcont, if_true, hen, and_self, henv]
        refine ⟨handleError_errorMessage_ne _ _, by simp [handleError], ?_⟩
        simp [handleError, RunEffects.zero]
    · rw [if_neg (by
        intro hb
        rcases Bool.and_eq_true _ _ |>.mp hb with ⟨h1, h2⟩
        exact hen ⟨h1, h2⟩)] at hthrow
      rcases henv2 : env.renderError with _ | e2
      · rw [henv2] at hthrow; simp at hthrow
      · simp only [hcont, if_true, hen, if_false, henv2]
        refine ⟨handleError_errorMessage_ne _ _, by simp [handleError], ?_⟩
        simp [handleError, RunEffects.zero]
  obtain ⟨hmsg, herr1, hcomp0, hlastkeep, hproc', hcontent⟩ := hmain
  refine ⟨?_, hmsg, herr1, hcomp0, hlastkeep, ?_, hcontent, ?_⟩
  · unfold statusClass
    rw [if_pos hmsg]
  · rw [hlastkeep]; exact fun h => hdiff h.symm
  · exact processContent_pipeline_markdown env2 _
      (by rw [hcontent]; exact hne)
      (by rw [hcontent, hlastkeep]; rintro ⟨h1, _⟩; exact hdiff h1)

/-- C3 witness: a concrete failing typeset stage on fresh content. -/
theorem C3_process_error_path_witness :
    (let st : CompState :=
      { content := "x", enableDynamicComponents := true, componentsEnabled := true,
        lastProcessedContent := "", isProcessing := false,
        processingStage := .complete, errorMessage := "", componentCount := 0 };
     let env : PipelineEnv :=
      { hasContainer := true, componentsError := none, renderError := some "boom",
        createdComponents := 0 };
     statusClass (processContent env st).1 = "error" ∧
     (processContent env st).1.errorMessage ≠ "" ∧
     (processContent env st).2.errorEvents = 1 ∧
     (processContent env st).2.completionEvents = 0 ∧
     (processContent env st).1.lastProcessedContent = st.lastProcessedContent ∧
     (processContent env st).1.lastProcessedContent ≠ st.content ∧
     (processContent env st).1.content = st.content ∧
     (processContent env (processContent env st).1).2.markdownConversions = 1) :=
  C3_process_error_path
    ⟨true, none, some "boom", 0⟩ ⟨true, none, some "boom", 0⟩
    { content := "x", enableDynamicComponents := true, componentsEnabled := true,
      lastProcessedContent := "", isProcessing := false,
      processingStage := .complete, errorMessage := "", componentCount := 0 }
    (by decide) rfl (by decide) rfl (by decide)

/-- C5 witness: a concrete failing engine call. -/
theorem C5_renderDocument_fails_softly_witness :
    (initialServiceState.isInitialized = true ∨ (⟨false, some "boom", "H", "C"⟩ : EngineEnv).initThrows = false) ∧
    (⟨false, some "boom", "H", "C"⟩ : EngineEnv).engineError = some "boom" ∧
    trimChars ("x".toList) ≠ [] ∧
    ((renderDocument ⟨false, some "boom", "H", "C"⟩ "loc" "x" none initialServiceState).1 = .ok ("", "") ∧
     (renderDocument ⟨false, some "boom", "H", "C"⟩ "loc" "x" none initialServiceState).2.2.errorsLogged = 1) :=
  ⟨by decide, by decide, by decide,
   C5_renderDocument_fails_softly ⟨false, some "boom", "H", "C"⟩ "loc" "x" none
     initialServiceState "boom" (by decide) (by decide) (by decide)⟩
